import Mathlib

/-!
Shallow embedding of the core of a filesystem module resolver
(`resolve.rs` and `plugin/exports_field.rs`), together with theorems
settling the specification claims about it.

Strings from the source are modelled at the character level
(`String.data : List Char`); filesystem access, manifest parsing and the
external plugins (main field, main file, browser field, imports field)
as well as the top-level `_resolve` entry point are oracle fields of the
`Resolver` structure, matching the spec's "external collaborators"
interface (§6).
-/

deriving instance DecidableEq for Except

namespace NodeResolver

/-- Modelled from the spec (§7): the resolver's hard-error kind; the only
variant the sources construct directly is `UnexpectedValue`. -/
inductive RErr where
  | unexpectedValue (msg : String)
  | other (msg : String)
deriving DecidableEq

/-- Modelled from the spec (§3): a request is target, query and fragment. -/
structure Request where
  target : String
  query : String
  fragment : String
deriving DecidableEq

/-- Modelled from the spec: `Default::default()` for requests, all empty. -/
def Request.default : Request := ⟨"", "", ""⟩

/-- Modelled from the spec (§3): in-flight resolution state is a normalized
base directory plus the current request. -/
structure Info where
  path : String
  request : Request
deriving DecidableEq

def Info.with_path (i : Info) (p : String) : Info := ⟨p, i.request⟩

def Info.with_target (i : Info) (t : String) : Info :=
  ⟨i.path, ⟨t, i.request.query, i.request.fragment⟩⟩

def Info.with_request (i : Info) (r : Request) : Info := ⟨i.path, r⟩

/-- Modelled from the spec (§3): terminal success payload. -/
inductive ResolveResult where
  | info (i : Info)
deriving DecidableEq

/-- Modelled from the spec (§3): the four-variant resolution state. -/
inductive State where
  | Resolving (info : Info)
  | Success (result : ResolveResult)
  | Failed (info : Info)
  | Error (err : RErr)
deriving DecidableEq

/-- Modelled from the spec (§4.1): the chaining combinator — forward
`Resolving` into the step function, pass everything else through. -/
def State.then (s : State) (f : Info → State) : State :=
  match s with
  | .Resolving info => f info
  | _ => s

/-- Modelled from the spec (§4.3): a state is finished when it is
`Success` or `Error`. -/
def State.is_finished (s : State) : Bool :=
  match s with
  | .Success _ => true
  | .Error _ => true
  | _ => false

/-- Helper discriminator used only in statements. -/
def State.is_resolving (s : State) : Bool :=
  match s with
  | .Resolving _ => true
  | _ => false

/-- Modelled from the spec (§3): parsed package manifest — declared name,
optional exports tree (abstract type `τ`), package directory. -/
structure PkgInfo (τ : Type) where
  name : Option String
  exports_field_tree : Option τ
  dir : String
deriving DecidableEq

/-- Modelled from the spec (§6): a filesystem entry answers `is_dir`,
`is_file`, `exists` and yields the governing package manifest. -/
structure FsEntry (τ : Type) where
  is_file : Bool
  is_dir : Bool
  exists_ : Bool
  pkg_info : Except RErr (Option (PkgInfo τ))

/-- The extension-enforcement mode (`EnforceExtension`). -/
inductive EnforceExtension where
  | Enabled
  | Disabled
deriving DecidableEq

/-- The resolver's static configuration, per the spec (§5). -/
structure ResolverOptions where
  extensions : List String
  enforce_extension : EnforceExtension
  resolve_to_context : Bool
  modules : List String
  condition_names : List String

/-- The resolver: static options plus its external collaborators (spec §6)
as oracle functions — filesystem entries, the exports/imports tree
evaluator, the four external plugins and the top-level `_resolve` that
plugins re-enter recursively. -/
structure Resolver (τ : Type) where
  options : ResolverOptions
  load_entry : String → FsEntry τ
  field_process : τ → String → List String → Except RErr (List String)
  check_target : String → Except String Unit
  main_field_apply : PkgInfo τ → Info → State
  main_file_apply : Info → State
  browser_field_apply : PkgInfo τ → Info → State
  imports_field_apply : PkgInfo τ → Info → State
  _resolve : Info → State

/-! ### Character-level string and path helpers -/

/-- `s.starts_with(c)` at the character level. -/
def headIsChar (c : Char) (s : String) : Bool :=
  match s.data with
  | [] => false
  | d :: _ => d == c

/-- `s.ends_with(c)` at the character level. -/
def lastIsChar (c : Char) (s : String) : Bool :=
  match s.data.getLast? with
  | some d => d == c
  | none => false

/-- Modelled from std paths: a path is absolute when it starts with the
separator. -/
def isAbsolutePath (p : String) : Bool := headIsChar '/' p

/-- Modelled from std paths: `Path::join` — an absolute argument replaces
the base, otherwise the argument is appended after a separator. -/
def joinPath (p s : String) : String :=
  if isAbsolutePath s then s
  else if s = "" then p
  else if lastIsChar '/' p then p ++ s
  else p ++ "/" ++ s

/-- Indices (from offset `k`) of the separator characters of a character
list; recursion used to reason about `slash_index_list`. -/
def slashIdxsFrom : Nat → List Char → List Nat
  | _, [] => []
  | k, c :: cs =>
    if c = '/' then k :: slashIdxsFrom (k + 1) cs else slashIdxsFrom (k + 1) cs

/-- Modelled from std paths: `Path::parent` — strip the last component. -/
def parentPath (p : String) : Option String :=
  if p = "" then none
  else if p = "/" then none
  else
    match (slashIdxsFrom 0 p.data).getLast? with
    | none => some ""
    | some 0 => some "/"
    | some i => some ⟨p.data.take i⟩

/-- Modelled from the spec (§4.2): the request denotes a directory when the
target has a trailing separator or is empty. -/
def Request.is_directory (r : Request) : Bool :=
  lastIsChar '/' r.target || r.target == ""

/-- Modelled from the spec (§3): the resolved path of an `Info` is its base
directory joined with the request target. -/
def Info.to_resolved_path (i : Info) : String := joinPath i.path i.request.target

/-- Modelled from the spec (§2): `Resolver::parse` splits a request string
into target, query (from the first `?`) and fragment (from the first `#`). -/
def Resolver.parse (s : String) : Request :=
  let beforeHash := s.data.takeWhile (fun c => c != '#')
  let hash := s.data.dropWhile (fun c => c != '#')
  ⟨⟨beforeHash.takeWhile (fun c => c != '?')⟩,
   ⟨beforeHash.dropWhile (fun c => c != '?')⟩, ⟨hash⟩⟩

/-! ### Request target splitting (`resolve.rs`) -/

/-- All separator positions of the target, in order (`slash_index_list`). -/
def slash_index_list (s : String) : List Nat :=
  s.data.enum.filterMap fun p => if p.snd = '/' then some p.fst else none

/-- `split_slash_from_request`: the module-name/subpath boundary — the
second separator for a scoped (`@`) target, the first otherwise. -/
def split_slash_from_request (target : String) : Option Nat :=
  if headIsChar '@' target then (slash_index_list target).get? 1
  else (slash_index_list target).get? 0

/-- `get_module_name_from_request`. -/
def get_module_name_from_request (target : String) : String :=
  match split_slash_from_request target with
  | some i => ⟨target.data.take i⟩
  | none => target

/-- `get_path_from_request`. -/
def get_path_from_request (target : String) : Option String :=
  (split_slash_from_request target).map fun i => (⟨target.data.drop i⟩ : String)

/-! ### Exports-field plugin (`plugin/exports_field.rs`) -/

/-- The fatal "not exported" error built at the end of
`ExportsFieldPlugin::apply` when no candidate finishes. -/
def not_exported_error (tgt : String) (pkg_dir : String) : RErr :=
  .unexpectedValue
    ("Package path " ++ tgt ++ " is not exported in " ++ pkg_dir ++ "/package.json")

/-- The fatal error built when `check_target` rejects a mapped target (the
package directory is rendered in its quoted debug form). -/
def invalid_target_error (msg : String) (pkg_dir : String) : RErr :=
  .unexpectedValue (msg ++ " in \"" ++ pkg_dir ++ "\"/package.json")

/-- The fresh `Info` built for one mapped candidate target:
`Info::from(pkg_info.dir()).with_request(Resolver::parse(item))`. -/
def exports_item_info {τ : Type} (pkg : PkgInfo τ) (item : String) : Info :=
  ⟨pkg.dir, Resolver.parse item⟩

/-- The candidate loop of `ExportsFieldPlugin::apply` (lines 72–98): each
mapped target is validated, then resolved recursively; the first finished
state wins, and an exhausted list is the fatal "not exported" error. `tgt`
is the original request target: the shadowing binding of the computed
lookup key ends with the `if let` block, so the final message names the
outer target. -/
def exports_candidates_loop {τ : Type} (r : Resolver τ) (pkg : PkgInfo τ)
    (tgt : String) : List String → State
  | [] => .Error (not_exported_error tgt pkg.dir)
  | item :: rest =>
    let info := exports_item_info pkg item
    match r.check_target info.request.target with
    | .error msg => .Error (invalid_target_error msg pkg.dir)
    | .ok _ =>
      let state := r._resolve info
      if state.is_finished then state else exports_candidates_loop r pkg tgt rest

/-- The lookup-key computation of `ExportsFieldPlugin::apply` (lines 32–48):
`"." ++ subpath` when a subpath exists; otherwise `"."` if the target is an
existing path under the current directory or equals the package's declared
name; otherwise no key (the plugin exits early). -/
def exports_lookup_target {τ : Type} (r : Resolver τ) (pkg : PkgInfo τ)
    (info : Info) : Option String :=
  match get_path_from_request info.request.target with
  | some p => some ("." ++ p)
  | none =>
    if (r.load_entry (joinPath info.path info.request.target)).exists_
        || (match pkg.name with
            | some n => info.request.target == n
            | none => false) then
      some "."
    else none

/-- Lines 49–58: re-append query and fragment to the lookup key, using
`"./"` for the bare root key. -/
def exports_remaining_target (tgt query fragment : String) : String :=
  if query != "" || fragment != "" then
    (if tgt == "." then "./" else tgt) ++ query ++ fragment
  else tgt

/-- `ExportsFieldPlugin::apply`. -/
def ExportsFieldPlugin.apply {τ : Type} (r : Resolver τ) (pkg : PkgInfo τ)
    (info : Info) : State :=
  match pkg.exports_field_tree with
  | none => .Resolving info
  | some root =>
    match exports_lookup_target r pkg info with
    | none => .Failed info
    | some tgt =>
      let remaining := exports_remaining_target tgt info.request.query info.request.fragment
      match r.field_process root remaining r.options.condition_names with
      | .error e => .Error e
      | .ok list => exports_candidates_loop r pkg info.request.target list

/-! ### Primitive resolvers (`resolve.rs`) -/

/-- `Resolver::append_ext_for_path`. -/
def append_ext_for_path (path ext : String) : String := path ++ ext

/-- The extension loop of `Resolver::resolve_file_with_ext` (lines 22–27). -/
def resolve_file_with_ext_list {τ : Type} (r : Resolver τ) (path : String)
    (info : Info) : List String → State
  | [] => .Resolving info
  | ext :: rest =>
    let p := append_ext_for_path path ext
    if (r.load_entry p).is_file then
      .Success (.info ((info.with_path p).with_target ""))
    else resolve_file_with_ext_list r path info rest

/-- `Resolver::resolve_file_with_ext`. -/
def resolve_file_with_ext {τ : Type} (r : Resolver τ) (path : String)
    (info : Info) : State :=
  resolve_file_with_ext_list r path info r.options.extensions

/-- `Resolver::resolve_as_context` (lines 36–50). -/
def resolve_as_context {τ : Type} (r : Resolver τ) (info : Info) : State :=
  if !r.options.resolve_to_context then .Resolving info
  else
    let path := info.to_resolved_path
    if (r.load_entry path).is_dir then
      .Success (.info ⟨path, Request.default⟩)
    else .Failed info

/-- `Resolver::resolve_as_file` (lines 53–71). -/
def resolve_as_file {τ : Type} (r : Resolver τ) (info : Info) : State :=
  if info.request.is_directory then .Resolving info
  else
    let path := info.to_resolved_path
    match r.options.enforce_extension with
    | .Enabled => resolve_file_with_ext r path info
    | .Disabled =>
      if (r.load_entry path).is_file then
        .Success (.info ((info.with_path path).with_target ""))
      else resolve_file_with_ext r path info

/-- `Resolver::resolve_as_dir` (lines 74–92). -/
def resolve_as_dir {τ : Type} (r : Resolver τ) (info : Info) : State :=
  let dir := info.to_resolved_path
  let entry := r.load_entry dir
  if !entry.is_dir then .Failed info
  else
    match entry.pkg_info with
    | .error err => .Error err
    | .ok pkgInfo =>
      let info := (info.with_path dir).with_target "."
      (match pkgInfo with
       | some p => r.main_field_apply p info
       | none => State.Resolving info).then fun i => r.main_file_apply i

/-! ### node_modules traversal (`resolve.rs`) -/

/-- `is_resolve_self` (lines 219–225). -/
def is_resolve_self {τ : Type} (pkg : PkgInfo τ) (request_module_name : String) : Bool :=
  match pkg.name with
  | some n => request_module_name == n
  | none => false

/-- Lines 187–193 of `resolve_node_modules`: apply the exports-field rule
unless the package directory is the original base directory and the request
is not a self-reference. -/
def exports_stage {τ : Type} (r : Resolver τ) (pkg : PkgInfo τ)
    (original_dir request_module_name : String) (module_info : Info) : State :=
  let out_node_modules := pkg.dir == original_dir
  if !out_node_modules || is_resolve_self pkg request_module_name then
    ExportsFieldPlugin.apply r pkg module_info
  else State.Resolving module_info

/-- Lines 187–203 of `resolve_node_modules`: the manifest-driven chain
exports → imports → main field (on the joined path) → browser field. -/
def node_modules_pkg_state {τ : Type} (r : Resolver τ) (pkg : PkgInfo τ)
    (original_dir request_module_name : String) (module_info : Info) : State :=
  (((exports_stage r pkg original_dir request_module_name module_info).then fun i =>
      r.imports_field_apply pkg i).then fun i =>
        let path := joinPath i.path i.request.target
        let i2 := (i.with_path path).with_target "."
        r.main_field_apply pkg i2).then fun i =>
    r.browser_field_apply pkg i

/-- Lines 211–214 of `resolve_node_modules`: downgrade a terminal `Failed`
to `Resolving`, pass every other state through. -/
def downgrade_failed (s : State) : State :=
  match s with
  | .Failed i => .Resolving i
  | s => s

/-- `Resolver::resolve_node_modules` (lines 164–216). -/
def resolve_node_modules {τ : Type} (r : Resolver τ) (info : Info)
    (node_modules_path : String) : State :=
  let original_dir := info.path
  let request_module_name := get_module_name_from_request info.request.target
  let module_path := joinPath node_modules_path request_module_name
  let entry := r.load_entry module_path
  let module_info : Info := ⟨node_modules_path, info.request⟩
  if !entry.is_dir then
    let state := resolve_as_file r module_info
    if state.is_finished then state else .Resolving info
  else
    match entry.pkg_info with
    | .error err => .Error err
    | .ok pkgInfo =>
      let state :=
        (((match pkgInfo with
           | some pkg =>
             node_modules_pkg_state r pkg original_dir request_module_name module_info
           | none => State.Resolving module_info).then fun i =>
             resolve_as_context r i).then fun i =>
               resolve_as_file r i).then fun i => resolve_as_dir r i
      downgrade_failed state

/-- `Resolver::_resolve_as_modules` (lines 121–162). -/
def _resolve_as_modules {τ : Type} (r : Resolver τ) (info : Info)
    (original_dir node_modules_path : String) : State :=
  let entry := r.load_entry node_modules_path
  match entry.pkg_info with
  | .error err => .Error err
  | .ok pkgInfo =>
    if entry.is_dir then
      (resolve_node_modules r info node_modules_path).then fun i =>
        match pkgInfo with
        | some pkg =>
          if is_resolve_self pkg (get_module_name_from_request i.request.target) then
            ExportsFieldPlugin.apply r pkg i
          else .Resolving i
        | none => .Resolving i
    else
      match pkgInfo with
      | some pkg =>
        if pkg.dir == original_dir then
          if is_resolve_self pkg (get_module_name_from_request info.request.target) then
            ExportsFieldPlugin.apply r pkg info
          else .Resolving info
        else .Resolving info
      | none => .Resolving info

/-- The loop body of `Resolver::resolve_as_modules` (lines 96–117):
candidate module-storage names are tried in order; a relative name joined
to the base directory carries the find-up retry from the parent directory,
an absolute name does not; the first finished state wins and an exhausted
list is `Failed`. -/
def resolve_as_modules_list {τ : Type} (r : Resolver τ) (info : Info)
    (original_dir : String) : List String → State
  | [] => .Failed info
  | module :: rest =>
    let pr :=
      if isAbsolutePath module then (module, false)
      else (joinPath original_dir module, true)
    let state :=
      (_resolve_as_modules r info original_dir pr.1).then fun i =>
        if !pr.2 then State.Resolving i
        else
          match parentPath original_dir with
          | some parent_dir => r._resolve (i.with_path parent_dir)
          | none => State.Resolving i
    if state.is_finished then state
    else resolve_as_modules_list r info original_dir rest

/-- `Resolver::resolve_as_modules` (lines 94–119). -/
def resolve_as_modules {τ : Type} (r : Resolver τ) (info : Info) : State :=
  resolve_as_modules_list r info info.path r.options.modules

/-- Clearly named restatement of the spec's words for one step of the
find-up loop (spec §4.3): an absolute module-storage name is searched
exactly once; a relative one is joined to the base directory and, when the
attempt is still `Resolving`, retried by re-invoking the whole resolve from
the parent of the base directory. Compared with `resolve_as_modules` in the
claim about the find-up search. -/
def find_up_step {τ : Type} (r : Resolver τ) (info : Info)
    (original_dir : String) (m : String) : State :=
  if isAbsolutePath m then _resolve_as_modules r info original_dir m
  else
    match _resolve_as_modules r info original_dir (joinPath original_dir m) with
    | .Resolving i =>
      (match parentPath original_dir with
       | some parent_dir => r._resolve (i.with_path parent_dir)
       | none => State.Resolving i)
    | s => s

/-! ### Concrete fixtures used by witnesses -/

/-- A filesystem entry that exists in no form and has no manifest. -/
def noEntry : FsEntry Unit := ⟨false, false, false, .ok none⟩

def baseOptions : ResolverOptions :=
  ⟨[".js", ".json"], .Disabled, false, ["node_modules"], []⟩

/-- A resolver over an empty filesystem with inert oracle plugins. -/
def rEmpty : Resolver Unit :=
  ⟨baseOptions, fun _ => noEntry, fun _ _ _ => .ok [], fun _ => .ok (),
   fun _ i => .Resolving i, fun i => .Resolving i, fun _ i => .Resolving i,
   fun _ i => .Resolving i, fun i => .Resolving i⟩

/-- A resolver whose filesystem holds exactly the file `/a/foo.js`. -/
def rFile : Resolver Unit :=
  ⟨baseOptions,
   fun p => if p = "/a/foo.js" then ⟨true, false, true, .ok none⟩ else noEntry,
   fun _ _ _ => .ok [], fun _ => .ok (),
   fun _ i => .Resolving i, fun i => .Resolving i, fun _ i => .Resolving i,
   fun _ i => .Resolving i, fun i => .Resolving i⟩

/-- A context-mode resolver whose filesystem is all directories. -/
def rCtx : Resolver Unit :=
  ⟨⟨[".js", ".json"], .Disabled, true, ["node_modules"], []⟩,
   fun _ => ⟨false, true, true, .ok none⟩, fun _ _ _ => .ok [], fun _ => .ok (),
   fun _ i => .Resolving i, fun i => .Resolving i, fun _ i => .Resolving i,
   fun _ i => .Resolving i, fun i => .Resolving i⟩

/-- A package at `/d` named `pkg` with an exports map. -/
def pkgC : PkgInfo Unit := ⟨some "pkg", some (), "/d"⟩

def infoC : Info := ⟨"/d", ⟨"other", "", ""⟩⟩

/-- A request with a subpath under the package named `p`. -/
def pkgE : PkgInfo Unit := ⟨some "p", some (), "/d"⟩

def infoE : Info := ⟨"/d", ⟨"p/sub", "", ""⟩⟩

/-- A resolver whose filesystem knows `/d/node_modules` only as the location
of the manifest of `pkgC` (the candidate directory itself does not exist). -/
def rSelf : Resolver Unit :=
  ⟨baseOptions,
   fun p => if p = "/d/node_modules" then ⟨false, false, false, .ok (some pkgC)⟩ else noEntry,
   fun _ _ _ => .ok [], fun _ => .ok (),
   fun _ i => .Resolving i, fun i => .Resolving i, fun _ i => .Resolving i,
   fun _ i => .Resolving i, fun i => .Resolving i⟩

def infoSelf : Info := ⟨"/d", ⟨"pkg", "", ""⟩⟩

def infoM : Info := ⟨"/a/b", ⟨"other", "", ""⟩⟩

def infoFoo : Info := ⟨"/a", ⟨"foo", "?q", "#f"⟩⟩

end NodeResolver

namespace NodeResolver

/-! ### Helper lemmas: the separator-index list -/

theorem enum_filterMap_slash (l : List Char) :
    (l.enum.filterMap fun p => if p.snd = '/' then some p.fst else none) =
      slashIdxsFrom 0 l := by
  suffices h : ∀ k, ((l.enumFrom k).filterMap
      fun p => if p.snd = '/' then some p.fst else none) = slashIdxsFrom k l by
    simpa [List.enum] using h 0
  induction l with
  | nil => intro k; simp [List.enumFrom, slashIdxsFrom]
  | cons c cs ih =>
    intro k
    by_cases hc : c = '/'
    · simp [List.enumFrom, slashIdxsFrom, hc, List.filterMap_cons, ih]
    · simp [List.enumFrom, slashIdxsFrom, hc, List.filterMap_cons, ih]

theorem slash_index_list_eq (s : String) :
    slash_index_list s = slashIdxsFrom 0 s.data :=
  enum_filterMap_slash s.data

theorem slashIdxsFrom_get?_some :
    ∀ (l : List Char) (k n i : Nat), (slashIdxsFrom k l).get? n = some i →
      ∃ j, i = k + j ∧ l.get? j = some '/' ∧
        (l.take j).countP (fun c => c == '/') = n := by
  intro l
  induction l with
  | nil => intro k n i h; simp [slashIdxsFrom] at h
  | cons c cs ih =>
    intro k n i h
    simp only [slashIdxsFrom] at h
    by_cases hc : c = '/'
    · rw [if_pos hc] at h
      cases n with
      | zero =>
        simp only [List.get?] at h
        have hk : k = i := by injection h
        refine ⟨0, by omega, by simp [hc], by simp⟩
      | succ m =>
        simp only [List.get?] at h
        obtain ⟨j, hj, hget, hcount⟩ := ih (k + 1) m i h
        refine ⟨j + 1, by omega, by simpa using hget, ?_⟩
        simp [List.countP_cons, hc, hcount]
    · rw [if_neg hc] at h
      obtain ⟨j, hj, hget, hcount⟩ := ih (k + 1) n i h
      refine ⟨j + 1, by omega, by simpa using hget, ?_⟩
      simp [List.countP_cons, hc, hcount]

theorem slashIdxsFrom_get?_none :
    ∀ (l : List Char) (k n : Nat), (slashIdxsFrom k l).get? n = none →
      l.countP (fun c => c == '/') ≤ n := by
  intro l
  induction l with
  | nil => intro k n _; simp
  | cons c cs ih =>
    intro k n h
    simp only [slashIdxsFrom] at h
    by_cases hc : c = '/'
    · rw [if_pos hc] at h
      cases n with
      | zero => simp [List.get?] at h
      | succ m =>
        simp only [List.get?] at h
        have := ih (k + 1) m h
        simp only [List.countP_cons, hc]
        simp
        omega
    · rw [if_neg hc] at h
      have := ih (k + 1) n h
      simpa [List.countP_cons, hc] using this

theorem string_mk_append (l₁ l₂ : List Char) :
    (String.mk l₁ ++ String.mk l₂ : String) = String.mk (l₁ ++ l₂) := rfl

/-- Claim C7: the module-name/subpath boundary is the second separator
position of a scoped (`@`) target and the first otherwise (`none` when no
such position exists); when a boundary exists the module name concatenated
with the subpath is the whole target, and the subpath is `none` exactly
when no boundary exists, in which case the module name is the target. -/
theorem split_request_spec (t : String) :
    (split_slash_from_request t =
      (if headIsChar '@' t then (slash_index_list t).get? 1
       else (slash_index_list t).get? 0)) ∧
    (∀ i, split_slash_from_request t = some i →
      t.data.get? i = some '/' ∧
      (t.data.take i).countP (fun c => c == '/') =
        (if headIsChar '@' t then 1 else 0) ∧
      get_module_name_from_request t ++ (⟨t.data.drop i⟩ : String) = t ∧
      get_path_from_request t = some ⟨t.data.drop i⟩) ∧
    (split_slash_from_request t = none →
      t.data.countP (fun c => c == '/') ≤ (if headIsChar '@' t then 1 else 0) ∧
      get_module_name_from_request t = t) ∧
    (get_path_from_request t = none ↔ split_slash_from_request t = none) := by
  refine ⟨rfl, ?_, ?_, ?_⟩
  · intro i h
    have hcat : get_module_name_from_request t ++ (⟨t.data.drop i⟩ : String) = t := by
      rw [get_module_name_from_request, h]
      show String.mk (t.data.take i ++ t.data.drop i) = t
      rw [List.take_append_drop]
    have hpath : get_path_from_request t = some ⟨t.data.drop i⟩ := by
      rw [get_path_from_request, h, Option.map_some']
    rw [split_slash_from_request, slash_index_list_eq] at h
    by_cases hsc : headIsChar '@' t
    · rw [if_pos hsc] at h
      obtain ⟨j, hj, hget, hcount⟩ := slashIdxsFrom_get?_some t.data 0 1 i h
      have hji : j = i := by omega
      subst hji
      exact ⟨hget, by simpa [hsc] using hcount, hcat, hpath⟩
    · rw [if_neg hsc] at h
      obtain ⟨j, hj, hget, hcount⟩ := slashIdxsFrom_get?_some t.data 0 0 i h
      have hji : j = i := by omega
      subst hji
      exact ⟨hget, by simpa [hsc] using hcount, hcat, hpath⟩
  · intro h
    have hname : get_module_name_from_request t = t := by
      rw [get_module_name_from_request, h]
    rw [split_slash_from_request, slash_index_list_eq] at h
    by_cases hsc : headIsChar '@' t
    · rw [if_pos hsc] at h
      exact ⟨by simpa [hsc] using slashIdxsFrom_get?_none t.data 0 1 h, hname⟩
    · rw [if_neg hsc] at h
      exact ⟨by simpa [hsc] using slashIdxsFrom_get?_none t.data 0 0 h, hname⟩
  · rw [get_path_from_request]
    cases split_slash_from_request t <;> simp

/-- Witness for C7 at the scoped target `"@a/b/c"`, whose boundary is the
second separator, at position 4. -/
theorem split_request_spec_witness :
    "@a/b/c".data.get? 4 = some '/' ∧
    ("@a/b/c".data.take 4).countP (fun c => c == '/') =
      (if headIsChar '@' "@a/b/c" then 1 else 0) ∧
    get_module_name_from_request "@a/b/c" ++ (⟨"@a/b/c".data.drop 4⟩ : String) =
      "@a/b/c" ∧
    get_path_from_request "@a/b/c" = some ⟨"@a/b/c".data.drop 4⟩ :=
  (split_request_spec "@a/b/c").2.1 4 (by decide)

/-! ### Helper lemmas: the extension probe -/

theorem resolve_file_with_ext_list_eq {τ : Type} (r : Resolver τ) (path : String)
    (info : Info) : ∀ exts : List String,
    resolve_file_with_ext_list r path info exts =
      (match exts.find?
          (fun ext => (r.load_entry (append_ext_for_path path ext)).is_file) with
       | some ext =>
         State.Success (.info ((info.with_path
           (append_ext_for_path path ext)).with_target ""))
       | none => State.Resolving info) := by
  intro exts
  induction exts with
  | nil => simp [resolve_file_with_ext_list, List.find?]
  | cons e es ih =>
    simp only [resolve_file_with_ext_list]
    cases he : (r.load_entry (append_ext_for_path path e)).is_file with
    | true => simp [List.find?, he]
    | false => simp [List.find?, he, ih]

/-- Claim C6: when the request does not denote a directory, enforced
extension mode probes only `path ++ ext` for the configured extensions in
order, succeeding on the first extension whose file exists and yielding
`Resolving` otherwise; with enforcement off the literal path wins when it is
a file, and otherwise the same in-order probe decides. -/
theorem resolve_as_file_first_ext_wins {τ : Type} (r : Resolver τ) (info : Info)
    (hdir : info.request.is_directory = false) :
    (r.options.enforce_extension = .Enabled →
      resolve_as_file r info =
        (match r.options.extensions.find?
            (fun ext =>
              (r.load_entry (append_ext_for_path info.to_resolved_path ext)).is_file) with
         | some ext =>
           State.Success (.info ((info.with_path
             (append_ext_for_path info.to_resolved_path ext)).with_target ""))
         | none => State.Resolving info)) ∧
    (r.options.enforce_extension = .Disabled →
      resolve_as_file r info =
        (if (r.load_entry info.to_resolved_path).is_file then
          State.Success (.info ((info.with_path info.to_resolved_path).with_target ""))
         else
          (match r.options.extensions.find?
              (fun ext =>
                (r.load_entry (append_ext_for_path info.to_resolved_path ext)).is_file) with
           | some ext =>
             State.Success (.info ((info.with_path
               (append_ext_for_path info.to_resolved_path ext)).with_target ""))
           | none => State.Resolving info))) := by
  constructor
  · intro h
    simp only [resolve_as_file, hdir, Bool.false_eq_true, if_false, h,
      resolve_file_with_ext]
    exact resolve_file_with_ext_list_eq r info.to_resolved_path info
      r.options.extensions
  · intro h
    simp only [resolve_as_file, hdir, Bool.false_eq_true, if_false, h,
      resolve_file_with_ext]
    cases hf : (r.load_entry info.to_resolved_path).is_file with
    | true => simp [hf]
    | false =>
      simp only [hf, Bool.false_eq_true, if_false]
      exact resolve_file_with_ext_list_eq r info.to_resolved_path info
        r.options.extensions

/-- Witness for C6: with extensions `[".js", ".json"]` and only `/a/foo.js`
on disk, resolving `foo` from `/a` picks `/a/foo.js`. -/
theorem resolve_as_file_first_ext_wins_witness :
    resolve_as_file rFile infoFoo =
      State.Success (.info ((infoFoo.with_path "/a/foo.js").with_target "")) :=
  ((resolve_as_file_first_ext_wins rFile infoFoo (by decide)).2 rfl).trans (by decide)

/-- Claim C10: every `Success` out of `resolve_as_file` carries an `Info`
whose target is empty and whose path is reported as a file by `load_entry`,
with query and fragment carried through unchanged. -/
theorem resolve_as_file_success_payload {τ : Type} (r : Resolver τ)
    (info i' : Info)
    (h : resolve_as_file r info = State.Success (.info i')) :
    i'.request.target = "" ∧ (r.load_entry i'.path).is_file = true ∧
    i'.request.query = info.request.query ∧
    i'.request.fragment = info.request.fragment := by
  have hlist : ∀ (path : String),
      resolve_file_with_ext_list r path info r.options.extensions =
        State.Success (.info i') →
      i'.request.target = "" ∧ (r.load_entry i'.path).is_file = true ∧
      i'.request.query = info.request.query ∧
      i'.request.fragment = info.request.fragment := by
    intro path hp
    rw [resolve_file_with_ext_list_eq] at hp
    cases hfind : r.options.extensions.find?
        (fun ext => (r.load_entry (append_ext_for_path path ext)).is_file) with
    | none => rw [hfind] at hp; cases hp
    | some ext =>
      rw [hfind] at hp
      have hfile := List.find?_some hfind
      have : (info.with_path (append_ext_for_path path ext)).with_target "" = i' := by
        injection hp with hp'; injection hp'
      subst this
      exact ⟨rfl, hfile, rfl, rfl⟩
  rw [resolve_as_file] at h
  cases hd : info.request.is_directory with
  | true => rw [hd] at h; simp at h
  | false =>
    rw [hd] at h
    simp only [Bool.false_eq_true, if_false] at h
    cases he : r.options.enforce_extension with
    | Enabled =>
      rw [he] at h
      exact hlist info.to_resolved_path h
    | Disabled =>
      rw [he] at h
      cases hf : (r.load_entry info.to_resolved_path).is_file with
      | true =>
        rw [hf] at h
        simp only [if_true] at h
        have : (info.with_path info.to_resolved_path).with_target "" = i' := by
          injection h with h'; injection h'
        subst this
        exact ⟨rfl, hf, rfl, rfl⟩
      | false =>
        rw [hf] at h
        simp only [Bool.false_eq_true, if_false] at h
        exact hlist info.to_resolved_path h

/-- Witness for C10 at the concrete success of `resolve_as_file`. -/
theorem resolve_as_file_success_payload_witness :
    ((infoFoo.with_path "/a/foo.js").with_target "").request.target = "" ∧
    (rFile.load_entry ((infoFoo.with_path "/a/foo.js").with_target "").path).is_file
      = true ∧
    ((infoFoo.with_path "/a/foo.js").with_target "").request.query =
      infoFoo.request.query ∧
    ((infoFoo.with_path "/a/foo.js").with_target "").request.fragment =
      infoFoo.request.fragment :=
  resolve_as_file_success_payload rFile infoFoo
    ((infoFoo.with_path "/a/foo.js").with_target "") (by decide)

/-- Claim C9: in context mode, a directory resolves to a `Success` whose
payload carries the directory path with the default (all-empty) request, so
the original query and fragment are discarded. -/
theorem resolve_as_context_default_request {τ : Type} (r : Resolver τ)
    (info : Info) (hctx : r.options.resolve_to_context = true)
    (hdir : (r.load_entry info.to_resolved_path).is_dir = true) :
    resolve_as_context r info =
      State.Success (.info ⟨info.to_resolved_path, Request.default⟩) ∧
    Request.default.target = "" ∧ Request.default.query = "" ∧
    Request.default.fragment = "" := by
  refine ⟨?_, rfl, rfl, rfl⟩
  simp [resolve_as_context, hctx, hdir]

/-- Witness for C9: a request with query and fragment resolves, in context
mode, to the bare directory with the default request. -/
theorem resolve_as_context_default_request_witness :
    resolve_as_context rCtx infoFoo =
      State.Success (.info ⟨"/a/foo", Request.default⟩) :=
  ((resolve_as_context_default_request rCtx infoFoo rfl (by decide)).1).trans
    (by decide)

/-- Claim C8: `resolve_as_dir` fails when the path is not an existing
directory, propagates manifest errors, and otherwise applies the main-field
rule (when a manifest is present) chained — via the combinator — into the
main-file probe. -/
theorem resolve_as_dir_spec {τ : Type} (r : Resolver τ) (info : Info) :
    ((r.load_entry info.to_resolved_path).is_dir = false →
      resolve_as_dir r info = State.Failed info) ∧
    (∀ err, (r.load_entry info.to_resolved_path).is_dir = true →
      (r.load_entry info.to_resolved_path).pkg_info = .error err →
      resolve_as_dir r info = State.Error err) ∧
    (∀ pkgInfo, (r.load_entry info.to_resolved_path).is_dir = true →
      (r.load_entry info.to_resolved_path).pkg_info = .ok pkgInfo →
      resolve_as_dir r info =
        (match pkgInfo with
         | some p =>
           r.main_field_apply p ((info.with_path info.to_resolved_path).with_target ".")
         | none =>
           State.Resolving ((info.with_path info.to_resolved_path).with_target ".")).then
          fun i => r.main_file_apply i) := by
  refine ⟨?_, ?_, ?_⟩
  · intro h
    simp [resolve_as_dir, h]
  · intro err hdir herr
    simp [resolve_as_dir, hdir, herr]
  · intro pkgInfo hdir hok
    simp [resolve_as_dir, hdir, hok]

/-- Witness for C8: over the empty filesystem, `resolve_as_dir` is `Failed`. -/
theorem resolve_as_dir_spec_witness :
    resolve_as_dir rEmpty infoM = State.Failed infoM :=
  (resolve_as_dir_spec rEmpty infoM).1 (by decide)

/-! ### Helper lemmas: the exports-field candidate loop -/

theorem exports_candidates_loop_not_soft {τ : Type} (r : Resolver τ)
    (pkg : PkgInfo τ) (tgt : String) :
    ∀ (l : List String) (i : Info),
      exports_candidates_loop r pkg tgt l ≠ State.Resolving i ∧
      exports_candidates_loop r pkg tgt l ≠ State.Failed i := by
  intro l
  induction l with
  | nil =>
    intro i
    exact ⟨by simp [exports_candidates_loop], by simp [exports_candidates_loop]⟩
  | cons item rest ih =>
    intro i
    simp only [exports_candidates_loop]
    cases hc : r.check_target (exports_item_info pkg item).request.target with
    | error msg => exact ⟨by simp, by simp⟩
    | ok u =>
      cases hf : (r._resolve (exports_item_info pkg item)).is_finished with
      | true =>
        simp only [if_true]
        constructor
        · intro h
          rw [h] at hf
          simp [State.is_finished] at hf
        · intro h
          rw [h] at hf
          simp [State.is_finished] at hf
      | false =>
        simp only [Bool.false_eq_true, if_false]
        exact ih i

theorem exports_candidates_loop_all_unfinished {τ : Type} (r : Resolver τ)
    (pkg : PkgInfo τ) (tgt : String) :
    ∀ l : List String,
      (∀ item ∈ l,
        r.check_target (exports_item_info pkg item).request.target = .ok () ∧
        (r._resolve (exports_item_info pkg item)).is_finished = false) →
      exports_candidates_loop r pkg tgt l =
        State.Error (not_exported_error tgt pkg.dir) := by
  intro l
  induction l with
  | nil => intro _; rfl
  | cons item rest ih =>
    intro h
    obtain ⟨hok, hnf⟩ := h item (List.mem_cons_self item rest)
    simp only [exports_candidates_loop, hok, hnf, Bool.false_eq_true, if_false]
    exact ih fun x hx => h x (List.mem_cons_of_mem item hx)

theorem exports_candidates_loop_invalid {τ : Type} (r : Resolver τ)
    (pkg : PkgInfo τ) (tgt : String) :
    ∀ (l1 : List String) (item : String) (l2 : List String) (msg : String),
      (∀ x ∈ l1,
        r.check_target (exports_item_info pkg x).request.target = .ok () ∧
        (r._resolve (exports_item_info pkg x)).is_finished = false) →
      r.check_target (exports_item_info pkg item).request.target = .error msg →
      exports_candidates_loop r pkg tgt (l1 ++ item :: l2) =
        State.Error (invalid_target_error msg pkg.dir) := by
  intro l1
  induction l1 with
  | nil =>
    intro item l2 msg _ herr
    simp only [List.nil_append, exports_candidates_loop, herr]
  | cons x xs ih =>
    intro item l2 msg h herr
    obtain ⟨hok, hnf⟩ := h x (List.mem_cons_self x xs)
    simp only [List.cons_append, exports_candidates_loop, hok, hnf,
      Bool.false_eq_true, if_false]
    exact ih item l2 msg (fun y hy => h y (List.mem_cons_of_mem x hy)) herr

/-- Claim C2: with an exports map present, `ExportsFieldPlugin::apply` never
falls back to later resolution steps — `Resolving` arises only when the
manifest has no exports map; a lookup failure or an invalid mapped target is
a hard `Error`, and when no candidate's recursive resolve finishes the
result is the fatal "not exported" error. -/
theorem exports_field_closed_world {τ : Type} (r : Resolver τ)
    (pkg : PkgInfo τ) (info : Info) :
    (pkg.exports_field_tree = none →
      ExportsFieldPlugin.apply r pkg info = State.Resolving info) ∧
    (∀ i, ExportsFieldPlugin.apply r pkg info = State.Resolving i →
      pkg.exports_field_tree = none ∧ i = info) ∧
    (∀ root, pkg.exports_field_tree = some root →
      exports_lookup_target r pkg info = none →
      ExportsFieldPlugin.apply r pkg info = State.Failed info) ∧
    (∀ root tgt e, pkg.exports_field_tree = some root →
      exports_lookup_target r pkg info = some tgt →
      r.field_process root
        (exports_remaining_target tgt info.request.query info.request.fragment)
        r.options.condition_names = .error e →
      ExportsFieldPlugin.apply r pkg info = State.Error e) ∧
    (∀ root tgt list, pkg.exports_field_tree = some root →
      exports_lookup_target r pkg info = some tgt →
      r.field_process root
        (exports_remaining_target tgt info.request.query info.request.fragment)
        r.options.condition_names = .ok list →
      (∀ item ∈ list,
        r.check_target (exports_item_info pkg item).request.target = .ok () ∧
        (r._resolve (exports_item_info pkg item)).is_finished = false) →
      ExportsFieldPlugin.apply r pkg info =
        State.Error (not_exported_error info.request.target pkg.dir)) ∧
    (∀ root tgt l1 item l2 msg, pkg.exports_field_tree = some root →
      exports_lookup_target r pkg info = some tgt →
      r.field_process root
        (exports_remaining_target tgt info.request.query info.request.fragment)
        r.options.condition_names = .ok (l1 ++ item :: l2) →
      (∀ x ∈ l1,
        r.check_target (exports_item_info pkg x).request.target = .ok () ∧
        (r._resolve (exports_item_info pkg x)).is_finished = false) →
      r.check_target (exports_item_info pkg item).request.target = .error msg →
      ExportsFieldPlugin.apply r pkg info =
        State.Error (invalid_target_error msg pkg.dir)) := by
  refine ⟨?_, ?_, ?_, ?_, ?_, ?_⟩
  · intro h
    simp [ExportsFieldPlugin.apply, h]
  · intro i h
    cases htree : pkg.exports_field_tree with
    | none =>
      rw [ExportsFieldPlugin.apply, htree] at h
      exact ⟨rfl, by injection h with h'; exact h'.symm⟩
    | some root =>
      cases hlk : exports_lookup_target r pkg info with
      | none =>
        simp only [ExportsFieldPlugin.apply, htree, hlk] at h
        cases h
      | some tgt =>
        cases hfp : r.field_process root
            (exports_remaining_target tgt info.request.query info.request.fragment)
            r.options.condition_names with
        | error e =>
          simp only [ExportsFieldPlugin.apply, htree, hlk, hfp] at h
          cases h
        | ok list =>
          simp only [ExportsFieldPlugin.apply, htree, hlk, hfp] at h
          exact absurd h (exports_candidates_loop_not_soft r pkg info.request.target list i).1
  · intro root htree hlk
    simp [ExportsFieldPlugin.apply, htree, hlk]
  · intro root tgt e htree hlk hfp
    simp [ExportsFieldPlugin.apply, htree, hlk, hfp]
  · intro root tgt list htree hlk hfp hall
    rw [ExportsFieldPlugin.apply, htree]
    simp only [hlk, hfp]
    exact exports_candidates_loop_all_unfinished r pkg info.request.target list hall
  · intro root tgt l1 item l2 msg htree hlk hfp hpre herr
    rw [ExportsFieldPlugin.apply, htree]
    simp only [hlk, hfp]
    exact exports_candidates_loop_invalid r pkg info.request.target l1 item l2 msg hpre herr

/-- Witness for C2: exports map present, lookup key `"./sub"`, no candidate
targets — the plugin yields the fatal "not exported" error. -/
theorem exports_field_closed_world_witness :
    ExportsFieldPlugin.apply rEmpty pkgE infoE =
      State.Error (not_exported_error infoE.request.target pkgE.dir) :=
  (exports_field_closed_world rEmpty pkgE infoE).2.2.2.2.1 () "./sub" []
    rfl (by decide) rfl (by simp)

/-- Counterexample for C1: exports map present, target `"other"` with no
subpath, not an existing path, not the package's declared name — the plugin
returns `Failed`, not `Resolving` as the claim states. -/
theorem exports_field_no_subpath_counterexample :
    ExportsFieldPlugin.apply rEmpty pkgC infoC = State.Failed infoC ∧
    (ExportsFieldPlugin.apply rEmpty pkgC infoC).is_resolving = false := by
  decide

/-- Claim C1 (amended): in the no-subpath case where the target is neither
an existing path under the current directory nor the package's declared
name, `ExportsFieldPlugin::apply` returns `Failed` (the exports rule does
not produce a result for this branch), not `Resolving`. -/
theorem exports_field_no_subpath_inapplicable_failed {τ : Type}
    (r : Resolver τ) (pkg : PkgInfo τ) (info : Info) (root : τ)
    (htree : pkg.exports_field_tree = some root)
    (hsub : get_path_from_request info.request.target = none)
    (hex : (r.load_entry (joinPath info.path info.request.target)).exists_ = false)
    (hname : pkg.name ≠ some info.request.target) :
    ExportsFieldPlugin.apply r pkg info = State.Failed info := by
  have hmatch : (match pkg.name with
      | some n => info.request.target == n
      | none => false) = false := by
    cases hn : pkg.name with
    | none => rfl
    | some n =>
      cases he : info.request.target == n with
      | true =>
        exfalso
        apply hname
        rw [hn, eq_of_beq he]
      | false => exact he
  have hlk : exports_lookup_target r pkg info = none := by
    rw [exports_lookup_target, hsub]
    simp [hex, hmatch]
  simp [ExportsFieldPlugin.apply, htree, hlk]

/-- Witness for the amended C1 at the concrete inapplicable input. -/
theorem exports_field_no_subpath_inapplicable_failed_witness :
    ExportsFieldPlugin.apply rEmpty pkgC infoC = State.Failed infoC :=
  exports_field_no_subpath_inapplicable_failed rEmpty pkgC infoC ()
    rfl (by decide) (by decide) (by decide)

/-! ### Helper lemmas: node_modules traversal never yields `Failed` -/

theorem State.then_resolving (i : Info) (f : Info → State) :
    (State.Resolving i).then f = f i := rfl

theorem State.then_success (res : ResolveResult) (f : Info → State) :
    (State.Success res).then f = State.Success res := rfl

theorem State.then_failed (i : Info) (f : Info → State) :
    (State.Failed i).then f = State.Failed i := rfl

theorem State.then_error (e : RErr) (f : Info → State) :
    (State.Error e).then f = State.Error e := rfl

theorem downgrade_failed_ne_failed (s : State) (i : Info) :
    downgrade_failed s ≠ State.Failed i := by
  cases s <;> simp [downgrade_failed]

theorem resolve_node_modules_no_failed {τ : Type} (r : Resolver τ) (info : Info)
    (nmp : String) : ∀ i, resolve_node_modules r info nmp ≠ State.Failed i := by
  intro i h
  simp only [resolve_node_modules] at h
  cases hd : (r.load_entry (joinPath nmp
      (get_module_name_from_request info.request.target))).is_dir with
  | false =>
    simp only [hd, Bool.not_false, if_true] at h
    cases hf : (resolve_as_file r ⟨nmp, info.request⟩).is_finished with
    | true =>
      simp [hf] at h
      rw [h] at hf
      simp [State.is_finished] at hf
    | false =>
      simp [hf] at h
  | true =>
    simp only [hd, Bool.not_true, Bool.false_eq_true, if_false] at h
    cases hpk : (r.load_entry (joinPath nmp
        (get_module_name_from_request info.request.target))).pkg_info with
    | error err => simp [hpk] at h
    | ok pkgInfo =>
      simp only [hpk] at h
      exact absurd h (downgrade_failed_ne_failed _ i)

/-- When the request's module name is the package's declared name, the
exports plugin cannot return `Failed`: its only `Failed` exit needs the
no-subpath target to differ from the declared name. -/
theorem exports_apply_self_ne_failed {τ : Type} (r : Resolver τ)
    (pkg : PkgInfo τ) (info : Info)
    (hself : is_resolve_self pkg
      (get_module_name_from_request info.request.target) = true) :
    ∀ i, ExportsFieldPlugin.apply r pkg info ≠ State.Failed i := by
  intro i h
  cases htree : pkg.exports_field_tree with
  | none =>
    rw [ExportsFieldPlugin.apply, htree] at h
    cases h
  | some root =>
    cases hlk : exports_lookup_target r pkg info with
    | some tgt =>
      cases hfp : r.field_process root
          (exports_remaining_target tgt info.request.query info.request.fragment)
          r.options.condition_names with
      | error e =>
        simp only [ExportsFieldPlugin.apply, htree, hlk, hfp] at h
        cases h
      | ok list =>
        simp only [ExportsFieldPlugin.apply, htree, hlk, hfp] at h
        exact absurd h (exports_candidates_loop_not_soft r pkg info.request.target list i).2
    | none =>
      rw [exports_lookup_target] at hlk
      cases hgp : get_path_from_request info.request.target with
      | some p => rw [hgp] at hlk; cases hlk
      | none =>
        rw [hgp] at hlk
        have hmn : get_module_name_from_request info.request.target =
            info.request.target := by
          rw [get_module_name_from_request]
          rw [get_path_from_request] at hgp
          cases hsp : split_slash_from_request info.request.target with
          | none => rfl
          | some j => rw [hsp] at hgp; cases hgp
        rw [hmn] at hself
        cases hn : pkg.name with
        | none => rw [is_resolve_self, hn] at hself; cases hself
        | some n =>
          rw [is_resolve_self, hn] at hself
          rw [hn] at hlk
          rw [hself] at hlk
          simp at hlk

theorem _resolve_as_modules_no_failed {τ : Type} (r : Resolver τ) (info : Info)
    (od nmp : String) : ∀ i, _resolve_as_modules r info od nmp ≠ State.Failed i := by
  intro i h
  simp only [_resolve_as_modules] at h
  cases hpk : (r.load_entry nmp).pkg_info with
  | error err => simp [hpk] at h
  | ok pkgInfo =>
    cases hd : (r.load_entry nmp).is_dir with
    | true =>
      simp only [hpk] at h
      simp [hd] at h
      cases hrnm : resolve_node_modules r info nmp with
      | Resolving j =>
        rw [hrnm] at h
        simp only [State.then] at h
        cases pkgInfo with
        | none => simp at h
        | some pkg =>
          cases hs : is_resolve_self pkg
              (get_module_name_from_request j.request.target) with
          | true =>
            simp [hs] at h
            exact absurd h (exports_apply_self_ne_failed r pkg j hs i)
          | false =>
            simp [hs] at h
      | Success res => rw [hrnm, State.then_success] at h; cases h
      | Failed j => exact resolve_node_modules_no_failed r info nmp j hrnm
      | Error e => rw [hrnm, State.then_error] at h; cases h
    | false =>
      cases pkgInfo with
      | none => simp [hpk, hd] at h
      | some pkg =>
        simp only [hpk] at h
        simp [hd] at h
        by_cases hdir : pkg.dir = od
        · simp only [hdir, if_pos] at h
          cases hs : is_resolve_self pkg
              (get_module_name_from_request info.request.target) with
          | true =>
            simp [hs] at h
            exact absurd h (exports_apply_self_ne_failed r pkg info hs i)
          | false =>
            simp [hs] at h
        · simp [hdir] at h

/-- Claim C4: `resolve_node_modules` never returns `Failed` — the
existing-directory branch downgrades a terminal `Failed` of its chain to
`Resolving` at the very end, and the non-directory branch either finishes
via the direct-file attempt or yields `Resolving` with the original info. -/
theorem resolve_node_modules_never_failed {τ : Type} (r : Resolver τ)
    (info : Info) (nmp : String) :
    (∀ i, resolve_node_modules r info nmp ≠ State.Failed i) ∧
    ((r.load_entry (joinPath nmp
        (get_module_name_from_request info.request.target))).is_dir = false →
      (resolve_node_modules r info nmp = resolve_as_file r ⟨nmp, info.request⟩ ∧
        (resolve_as_file r ⟨nmp, info.request⟩).is_finished = true) ∨
      resolve_node_modules r info nmp = State.Resolving info) := by
  constructor
  · exact resolve_node_modules_no_failed r info nmp
  · intro hd
    cases hf : (resolve_as_file r ⟨nmp, info.request⟩).is_finished with
    | true =>
      refine Or.inl ⟨?_, rfl⟩
      simp [resolve_node_modules, hd, hf]
    | false =>
      refine Or.inr ?_
      simp [resolve_node_modules, hd, hf]

/-- Witness for C4: a missing package directory leaves the loop `Resolving`
with the original info. -/
theorem resolve_node_modules_never_failed_witness :
    resolve_node_modules rEmpty infoM "/x" = State.Resolving infoM := by
  rcases (resolve_node_modules_never_failed rEmpty infoM "/x").2 (by decide) with h | h
  · exact absurd h.2 (by decide)
  · exact h

/-- Claim C5: the exports-field rule fires exactly when the package's
directory differs from the original base directory or the request is a
self-reference; a self-reference is exactly a request whose module name is
the manifest's declared name; and the no-directory branch of
`_resolve_as_modules` additionally requires the manifest's directory to be
the original base directory. -/
theorem exports_application_condition {τ : Type} (r : Resolver τ) (info : Info)
    (pkg : PkgInfo τ) :
    (∀ m, is_resolve_self pkg m = true ↔ pkg.name = some m) ∧
    (∀ od m mi, exports_stage r pkg od m mi =
      if pkg.dir ≠ od ∨ pkg.name = some m then ExportsFieldPlugin.apply r pkg mi
      else State.Resolving mi) ∧
    (∀ od nmp, (r.load_entry nmp).is_dir = false →
      (r.load_entry nmp).pkg_info = .ok (some pkg) →
      _resolve_as_modules r info od nmp =
        (if pkg.dir = od ∧
            pkg.name = some (get_module_name_from_request info.request.target)
         then ExportsFieldPlugin.apply r pkg info
         else State.Resolving info)) := by
  have hself : ∀ m, is_resolve_self pkg m = true ↔ pkg.name = some m := by
    intro m
    cases hn : pkg.name with
    | none => simp [is_resolve_self, hn]
    | some n =>
      rw [is_resolve_self, hn]
      constructor
      · intro hb
        rw [eq_of_beq hb]
      · intro hs
        injection hs with hs'
        simp [hs']
  refine ⟨hself, ?_, ?_⟩
  · intro od m mi
    by_cases hcond : pkg.dir ≠ od ∨ pkg.name = some m
    · rw [if_pos hcond]
      have hb : (!(pkg.dir == od) || is_resolve_self pkg m) = true := by
        rcases hcond with hne | hname
        · have : (pkg.dir == od) = false := beq_eq_false_iff_ne.mpr hne
          simp [this]
        · simp [(hself m).mpr hname]
      simp [exports_stage, hb]
    · rw [if_neg hcond]
      push_neg at hcond
      obtain ⟨hdir, hname⟩ := hcond
      have hb1 : (pkg.dir == od) = true := beq_iff_eq.mpr hdir
      have hb2 : is_resolve_self pkg m = false := by
        cases hs : is_resolve_self pkg m with
        | true => exact absurd ((hself m).mp hs) hname
        | false => rfl
      simp [exports_stage, hb1, hb2]
  · intro od nmp hd hpk
    simp only [_resolve_as_modules, hpk, hd, Bool.false_eq_true, if_false]
    by_cases hcond : pkg.dir = od ∧
        pkg.name = some (get_module_name_from_request info.request.target)
    · rw [if_pos hcond]
      have hb1 : (pkg.dir == od) = true := beq_iff_eq.mpr hcond.1
      have hb2 : is_resolve_self pkg
          (get_module_name_from_request info.request.target) = true :=
        (hself _).mpr hcond.2
      simp [hb1, hb2]
    · rw [if_neg hcond]
      cases hb1 : pkg.dir == od with
      | false => simp
      | true =>
        have hdir : pkg.dir = od := beq_iff_eq.mp hb1
        have hname : pkg.name ≠
            some (get_module_name_from_request info.request.target) := by
          intro hn
          exact hcond ⟨hdir, hn⟩
        have hb2 : is_resolve_self pkg
            (get_module_name_from_request info.request.target) = false := by
          cases hs : is_resolve_self pkg
              (get_module_name_from_request info.request.target) with
          | true => exact absurd ((hself _).mp hs) hname
          | false => rfl
        simp [hb2]

/-- Witness for C5: the manifest of `pkgC` sits at the original base
directory and the request `pkg` is a self-reference, so the no-directory
branch applies the exports rule. -/
theorem exports_application_condition_witness :
    _resolve_as_modules rSelf infoSelf "/d" "/d/node_modules" =
      (if pkgC.dir = "/d" ∧
          pkgC.name = some (get_module_name_from_request infoSelf.request.target)
       then ExportsFieldPlugin.apply rSelf pkgC infoSelf
       else State.Resolving infoSelf) :=
  (exports_application_condition rSelf infoSelf pkgC).2.2 "/d" "/d/node_modules"
    (by decide) (by decide)

/-! ### Helper lemmas: the find-up loop -/

theorem find_up_step_eq_then {τ : Type} (r : Resolver τ) (info : Info)
    (od m : String) :
    ((_resolve_as_modules r info od
        (if isAbsolutePath m then (m, false) else (joinPath od m, true)).1).then
      fun i =>
        if !(if isAbsolutePath m then (m, false) else (joinPath od m, true)).2 then
          State.Resolving i
        else
          match parentPath od with
          | some parent_dir => r._resolve (i.with_path parent_dir)
          | none => State.Resolving i) = find_up_step r info od m := by
  cases habs : isAbsolutePath m with
  | true =>
    simp only [habs, if_true]
    cases h : _resolve_as_modules r info od m <;>
      simp [State.then, find_up_step, habs, h]
  | false =>
    simp only [habs, Bool.false_eq_true, if_false]
    cases h : _resolve_as_modules r info od (joinPath od m) <;>
      simp [State.then, find_up_step, habs, h]

theorem resolve_as_modules_list_eq_find {τ : Type} (r : Resolver τ)
    (info : Info) (od : String) : ∀ ms : List String,
    resolve_as_modules_list r info od ms =
      ((ms.map (find_up_step r info od)).find? State.is_finished).getD
        (State.Failed info) := by
  intro ms
  induction ms with
  | nil => simp [resolve_as_modules_list, List.find?]
  | cons m rest ih =>
    simp only [resolve_as_modules_list]
    rw [find_up_step_eq_then]
    rw [List.map_cons]
    cases hf : (find_up_step r info od m).is_finished with
    | true => simp [List.find?, hf]
    | false => simp [List.find?, hf, ih]

/-- Claim C3: `resolve_as_modules` tries the configured module-storage
names in order, each contributing one `find_up_step` — an absolute name is
searched exactly once, a relative one is joined to the base directory and,
when still unfinished, retried by re-invoking the whole resolve from the
parent of the base directory; the first finished step wins and exhaustion
is `Failed`. An unfinished per-directory attempt is always `Resolving`
(never `Failed`), so the retry indeed covers every unfinished attempt. -/
theorem resolve_as_modules_find_up {τ : Type} (r : Resolver τ) (info : Info) :
    (resolve_as_modules r info =
      ((r.options.modules.map (find_up_step r info info.path)).find?
        State.is_finished).getD (State.Failed info)) ∧
    (∀ od nmp i, _resolve_as_modules r info od nmp ≠ State.Failed i) ∧
    (∀ od nmp, (_resolve_as_modules r info od nmp).is_finished = false →
      (_resolve_as_modules r info od nmp).is_resolving = true) := by
  refine ⟨?_, ?_, ?_⟩
  · rw [resolve_as_modules]
    exact resolve_as_modules_list_eq_find r info info.path r.options.modules
  · intro od nmp i
    exact _resolve_as_modules_no_failed r info od nmp i
  · intro od nmp h
    cases hs : _resolve_as_modules r info od nmp with
    | Resolving i => rfl
    | Success res => rw [hs] at h; simp [State.is_finished] at h
    | Failed i => exact absurd hs (_resolve_as_modules_no_failed r info od nmp i)
    | Error e => rw [hs] at h; simp [State.is_finished] at h

/-- Witness for C3 over the empty filesystem with one relative
module-storage name. -/
theorem resolve_as_modules_find_up_witness :
    resolve_as_modules rEmpty infoM =
      ((rEmpty.options.modules.map (find_up_step rEmpty infoM infoM.path)).find?
        State.is_finished).getD (State.Failed infoM) ∧
    (_resolve_as_modules rEmpty infoM "/a/b" "/a/b/node_modules").is_resolving
      = true :=
  ⟨(resolve_as_modules_find_up rEmpty infoM).1,
   (resolve_as_modules_find_up rEmpty infoM).2.2 "/a/b" "/a/b/node_modules"
     (by decide)⟩

end NodeResolver

